import Mathlib

/-!
Verification of the Atlas Decoding Pipeline of the atlas-divisions-site
repository.

The embedding covers the three scripts that implement the pipeline:

* scripts/kmeans_atlas_analysis.py — the Brightness Calibrator: the fixed
  16-entry Cinzano calibration table, the brightness score of a centroid,
  the ascending sort of clusters by brightness, and the construction of the
  cluster-id → category mapping (final_mapping).
* scripts/decode_atlas_lightmap_kmeans.py — the Pixel Remapper (classified
  strategy): nearest-cluster query, per-pixel intensity lookup with border
  suppression and the unmapped-cluster default, and the PIL contrast
  post-processing step.
* scripts/process_grayscale_atlas.py — the Pixel Remapper (direct-channel
  strategy): red-channel extraction, normalization against the maximum raw
  value 37, the 0.7 power curve and the scaling to 0..255.

Numeric modelling: centroid coordinates and pixel colors are rationals
(the Python code holds them as floats; every quantity the claims touch is
exact in ℚ). The power curve of the direct-channel strategy uses real
exponentiation, so the two definitions embedding that code are
noncomputable; everything else evaluates by decide/rfl.
-/

namespace AtlasDecoding

/-- Entry of the fixed Cinzano calibration table of
kmeans_atlas_analysis.py: a category name, the printed brightness-ratio
range, and the lightmap output intensity. -/
structure Category where
  name : String
  ratioRange : String
  intensity : ℕ
  deriving DecidableEq, Repr

/-- Default Category used only to give total indexing into the table. -/
def cdefault : Category := ⟨"", "", 0⟩

/-- The expanded 16-color Cinzano category table, verbatim from
kmeans_atlas_analysis.py lines 122-139 (name, ratio range, intensity). -/
def cinzano_categories : List Category := [
  ⟨"Black 1", "<0.01", 0⟩,
  ⟨"Black 2", "0.01-0.06", 8⟩,
  ⟨"Dark Gray 1", "0.06-0.11", 16⟩,
  ⟨"Dark Gray 2", "0.11-0.19", 24⟩,
  ⟨"Blue 1", "0.19-0.33", 32⟩,
  ⟨"Blue 2", "0.33-0.58", 48⟩,
  ⟨"Green 1", "0.58-1.00", 64⟩,
  ⟨"Green 2", "1.00-1.73", 80⟩,
  ⟨"Yellow 1", "1.73-3.00", 96⟩,
  ⟨"Yellow 2", "3.00-5.20", 128⟩,
  ⟨"Orange 1", "5.20-9.00", 160⟩,
  ⟨"Orange 2", "9.00-15.59", 192⟩,
  ⟨"Red 1", "15.59-27.00", 224⟩,
  ⟨"Red 2", "27.00-46.77", 240⟩,
  ⟨"White 1", ">46.77", 255⟩,
  ⟨"White 2/Border", "Border", 0⟩]

/-- Name of the border (non-data) category; decode_atlas_lightmap_kmeans.py
line 129 compares the bound category name against this string. -/
def border_category_name : String := "White 2/Border"

/-- A K-means cluster: its integer id and its centroid color (three
channel coordinates, rational in the model, float in the code). -/
structure Cluster where
  cid : ℕ
  c0 : ℚ
  c1 : ℚ
  c2 : ℚ
  deriving DecidableEq, Repr

/-- Brightness score of a cluster centroid, kmeans_atlas_analysis.py line
99: brightness = sum(center) / 3. -/
def brightness (c : Cluster) : ℚ := (c.c0 + c.c1 + c.c2) / 3

/-- Clusters sorted ascending by brightness, kmeans_atlas_analysis.py line
115 (Python sorted with key brightness; Python's sort is stable, and a
stable insertion sort on the same key produces the identical list). -/
def brightness_sorted (clusters : List Cluster) : List Cluster :=
  clusters.insertionSort (fun a b => brightness a ≤ brightness b)

/-- Association list built by the loop of kmeans_atlas_analysis.py lines
143-155: the cluster at brightness rank i is paired with table entry i,
and ranks at or past the table length are dropped (the if i <
len(cinzano_categories) guard). List.zip truncates exactly as the guard
does. -/
def calibrate (clusters : List Cluster) : List (ℕ × Category) :=
  ((brightness_sorted clusters).zip cinzano_categories).map
    (fun p => (p.1.cid, p.2))

/-- The final_mapping dict of kmeans_atlas_analysis.py: lookup of a
cluster id among the calibrated pairs (cluster ids produced by K-means are
distinct, so first-match lookup agrees with the Python dict). -/
def final_mapping (clusters : List Cluster) (cid : ℕ) : Option Category :=
  (calibrate clusters).lookup cid

/-- Squared Euclidean RGB distance from a pixel to a centroid, the metric
sklearn's predict minimizes. -/
def sq_dist (p : ℚ × ℚ × ℚ) (c : Cluster) : ℚ :=
  (p.1 - c.c0) ^ 2 + (p.2.1 - c.c1) ^ 2 + (p.2.2 - c.c2) ^ 2

/-- Nearest-centroid query of decode_atlas_lightmap_kmeans.py lines 62-66
(kmeans_model.predict): the first cluster of minimal squared distance
(sklearn breaks ties by lowest centroid index). -/
def find_closest_cluster (p : ℚ × ℚ × ℚ) : List Cluster → Option Cluster
  | [] => none
  | c :: rest =>
    match find_closest_cluster p rest with
    | none => some c
    | some d => if sq_dist p d < sq_dist p c then some d else some c

/-- Per-pixel intensity of the classified strategy,
decode_atlas_lightmap_kmeans.py lines 125-132: look the nearest cluster id
up in the mapping; a bound border category and an unmapped cluster both
yield 0, any other bound category yields its intensity. -/
def decode_pixel (mapping : ℕ → Option Category) (cid : ℕ) : ℕ :=
  match mapping cid with
  | some cat => if cat.name = border_category_name then 0 else cat.intensity
  | none => 0

/-- Full per-pixel remap of decode_atlas_lightmap_kmeans.py lines 118-134:
nearest cluster, then intensity lookup against the calibrated mapping. -/
def decode_atlas_pixel (clusters : List Cluster) (p : ℚ × ℚ × ℚ) : ℕ :=
  match find_closest_cluster p clusters with
  | some c => decode_pixel (final_mapping clusters) c.cid
  | none => 0

/-- The fifteen intensities that can appear in the remapped lightmap: the
intensity column of the calibration table with the border entry replaced
by 0 (the border entry's own intensity is already 0). -/
def lightmap_intensities : List ℕ :=
  [0, 8, 16, 24, 32, 48, 64, 80, 96, 128, 160, 192, 224, 240, 255]

/-- Clamp-and-truncate of PIL's Image.blend extrapolation path (factor
outside 0..1), which ImageEnhance.Contrast.enhance calls: values at or
below 0 become 0, values at or above 255 become 255, anything between is
truncated to an integer (nonnegative here, so truncation is floor). -/
def clip8 (q : ℚ) : ℤ :=
  if q ≤ 0 then 0 else if 255 ≤ q then 255 else ⌊q⌋

/-- Tone Post-processor: ImageEnhance.Contrast(img).enhance(factor)
(decode_atlas_lightmap_kmeans.py lines 142-143, factor 1.3;
process_grayscale_atlas.py lines 86-87, factor 1.2). PIL blends the pixel
with the constant mean-gray image: mean + factor * (pixel - mean), then
clips to 0..255. -/
def contrast_enhance (mean : ℤ) (factor : ℚ) (p : ℕ) : ℤ :=
  clip8 ((mean : ℚ) + factor * ((p : ℚ) - (mean : ℚ)))

/-- Direct-channel strategy per-pixel intensity,
process_grayscale_atlas.py lines 62-78: v is the red-channel value;
normalized = np.clip(v / 37, 0, 1); enhanced = normalized ** 0.7;
output = uint8(enhanced * 255) (truncation; the value is nonnegative, so
it is a floor). -/
noncomputable def process_grayscale_pixel (v : ℕ) : ℤ :=
  ⌊(min (max ((v : ℝ) / 37) 0) 1) ^ (0.7 : ℝ) * 255⌋

/-- The strategy applied to a full RGB pixel: process_grayscale_atlas.py
line 62 extracts channel 0 (red) and ignores the other two. -/
noncomputable def process_grayscale_rgb (p : ℕ × ℕ × ℕ) : ℤ :=
  process_grayscale_pixel p.1

/-- Modelled from the spec's wording of the direct-channel contract
(section 4.4): normalize the scalar channel value against the known
maximum raw value 37, clamp to the unit interval, raise to the power 7/10,
scale by 255 and truncate. Stated independently of
process_grayscale_pixel to compare code against spec. -/
noncomputable def direct_channel_spec (v : ℕ) : ℤ :=
  ⌊255 * (max 0 (min ((v : ℝ) / 37) 1)) ^ ((7 : ℝ) / 10)⌋

/-- Sixteen concrete clusters (ids 0..15, centroid channels 15·id), used
to instantiate the theorems on the pipeline's actual K = 16
configuration. -/
def sixteen_clusters : List Cluster :=
  (List.range 16).map (fun i => ⟨i, 15 * i, 15 * i, 15 * i⟩)

/-- Seventeen concrete clusters: one more than the table length, so the
brightest one receives no category binding. -/
def seventeen_clusters : List Cluster :=
  (List.range 17).map (fun i => ⟨i, 15 * i, 15 * i, 15 * i⟩)

/-- Two concrete clusters, a K = 2 configuration mismatching the 16-entry
table. -/
def two_clusters : List Cluster := [⟨0, 10, 10, 10⟩, ⟨1, 200, 200, 200⟩]

/- ## Helper lemmas -/

theorem lookup_mem {l : List (ℕ × Category)} {k : ℕ} {v : Category} :
    l.lookup k = some v → (k, v) ∈ l := by
  induction l with
  | nil => intro h; simp [List.lookup] at h
  | cons p t ih =>
    intro h
    rcases p with ⟨a, b⟩
    rw [List.lookup_cons] at h
    rcases hak : (k == a) with _ | _
    · rw [hak] at h
      exact List.mem_cons_of_mem _ (ih h)
    · rw [hak] at h
      obtain rfl : b = v := by simpa using h
      obtain rfl : k = a := by simpa using hak
      exact List.mem_cons_self _ _

theorem lookup_isSome_of_mem {l : List (ℕ × Category)} {k : ℕ} {v : Category}
    (h : (k, v) ∈ l) : ∃ w, l.lookup k = some w := by
  induction l with
  | nil => simp at h
  | cons p t ih =>
    rcases p with ⟨a, b⟩
    rcases hak : (k == a) with _ | _
    · rcases List.mem_cons.mp h with heq | hmem
      · obtain rfl : k = a := (Prod.mk.injEq .. ▸ heq).1
        simp at hak
      · obtain ⟨w, hw⟩ := ih hmem
        exact ⟨w, by rw [List.lookup_cons, hak, hw]⟩
    · exact ⟨b, by rw [List.lookup_cons, hak]⟩

theorem calibrate_getElem_some {clusters : List Cluster} {i : ℕ}
    {c : Cluster} {cat : Category}
    (hc : (brightness_sorted clusters)[i]? = some c)
    (hcat : cinzano_categories[i]? = some cat) :
    (calibrate clusters)[i]? = some (c.cid, cat) := by
  unfold calibrate
  rw [List.getElem?_map,
    (List.getElem?_zip_eq_some).mpr (⟨hc, hcat⟩ :
      (brightness_sorted clusters)[i]? = some (c, cat).1 ∧
        cinzano_categories[i]? = some (c, cat).2)]
  rfl

theorem calibrate_length (clusters : List Cluster) :
    (calibrate clusters).length = min clusters.length cinzano_categories.length := by
  unfold calibrate brightness_sorted
  rw [List.length_map, List.length_zip, (List.perm_insertionSort _ _).length_eq]

theorem brightness_sorted_sorted (clusters : List Cluster) :
    List.Sorted (fun a b => brightness a ≤ brightness b)
      (brightness_sorted clusters) := by
  haveI : IsTotal Cluster (fun a b => brightness a ≤ brightness b) :=
    ⟨fun a b => le_total _ _⟩
  haveI : IsTrans Cluster (fun a b => brightness a ≤ brightness b) :=
    ⟨fun _ _ _ h1 h2 => le_trans h1 h2⟩
  exact List.sorted_insertionSort _ _

theorem brightness_sorted_perm (clusters : List Cluster) :
    (brightness_sorted clusters).Perm clusters :=
  List.perm_insertionSort _ _

theorem cat_of_calibrate_mem {clusters : List Cluster} {k : ℕ} {cat : Category}
    (h : (k, cat) ∈ calibrate clusters) : cat ∈ cinzano_categories := by
  obtain ⟨p, hp, hpe⟩ := List.mem_map.mp h
  obtain rfl : p.2 = cat := (Prod.mk.injEq .. ▸ hpe).2
  exact (List.of_mem_zip hp).2

theorem decode_pixel_mem (clusters : List Cluster) (cid : ℕ) :
    decode_pixel (final_mapping clusters) cid ∈ lightmap_intensities := by
  unfold decode_pixel
  cases hm : final_mapping clusters cid with
  | none => simp [lightmap_intensities]
  | some cat =>
    by_cases hb : cat.name = border_category_name
    · simp [hb, lightmap_intensities]
    · simp only [hb, if_false]
      have hmem : cat ∈ cinzano_categories := cat_of_calibrate_mem (lookup_mem hm)
      have hall : ∀ c ∈ cinzano_categories, c.intensity ∈ lightmap_intensities := by
        decide
      exact hall cat hmem

theorem decode_atlas_pixel_mem (clusters : List Cluster) (p : ℚ × ℚ × ℚ) :
    decode_atlas_pixel clusters p ∈ lightmap_intensities := by
  unfold decode_atlas_pixel
  cases find_closest_cluster p clusters with
  | none => simp [lightmap_intensities]
  | some c => exact decode_pixel_mem clusters c.cid

theorem clip8_bounds (q : ℚ) : 0 ≤ clip8 q ∧ clip8 q ≤ 255 := by
  unfold clip8
  split_ifs with h1 h2
  · exact ⟨le_refl 0, by norm_num⟩
  · exact ⟨by norm_num, le_refl 255⟩
  · constructor
    · exact Int.le_floor.mpr (by push_cast; linarith)
    · calc ⌊q⌋ ≤ ⌊(255 : ℚ)⌋ := Int.floor_mono (le_of_lt (lt_of_not_le h2))
        _ = 255 := by norm_num

theorem clip8_mono {x y : ℚ} (h : x ≤ y) : clip8 x ≤ clip8 y := by
  by_cases hx0 : x ≤ 0
  · rw [clip8, if_pos hx0]
    exact (clip8_bounds y).1
  · by_cases hx255 : 255 ≤ x
    · rw [clip8, if_neg hx0, if_pos hx255, clip8,
        if_neg (show ¬ y ≤ 0 by linarith), if_pos (le_trans hx255 h)]
    · rw [clip8, if_neg hx0, if_neg hx255]
      by_cases hy255 : 255 ≤ y
      · rw [clip8, if_neg (show ¬ y ≤ 0 by linarith), if_pos hy255]
        calc ⌊x⌋ ≤ ⌊(255 : ℚ)⌋ := Int.floor_mono (le_of_lt (lt_of_not_le hx255))
          _ = 255 := by norm_num
      · rw [clip8, if_neg (show ¬ y ≤ 0 by intro hy0; exact hx0 (le_trans h hy0)),
          if_neg hy255]
        exact Int.floor_mono h

/- ## Claim C1 -/

/-- C1 counterexample: the claim requires the intensity column of the
16-entry table to be non-decreasing in rank for all categories including
the last, but ranks 14 < 15 carry intensities 255 and 0: the final border
entry breaks it. -/
theorem c1_counterexample :
    14 < 15 ∧ 15 < cinzano_categories.length ∧
    (cinzano_categories.getD 15 cdefault).intensity <
      (cinzano_categories.getD 14 cdefault).intensity := by
  decide

/-- C1 (amended): the intensity column of the calibration table is
non-decreasing in table rank over all pairs of categories that exclude
the final border entry (ranks below 15); the border entry at rank 15 is
the single exception, carrying intensity 0. -/
theorem c1_table_monotone :
    ∀ i j : Fin 16, i < j → (j : ℕ) < 15 →
      (cinzano_categories.getD (i : ℕ) cdefault).intensity ≤
        (cinzano_categories.getD (j : ℕ) cdefault).intensity := by
  decide

/-- C1 witness: the amended monotonicity at ranks 0 < 1. -/
theorem c1_table_monotone_witness :
    (cinzano_categories.getD (0 : ℕ) cdefault).intensity ≤
      (cinzano_categories.getD (1 : ℕ) cdefault).intensity :=
  c1_table_monotone 0 1 (by decide) (by decide)

/- ## Claim C2 -/

/-- C2 counterexample: a K = 2 cluster set does not match the 16-entry
table, yet calibration completes and hands back a cluster-to-category
mapping (binding both clusters to the two darkest table entries) instead
of failing. -/
theorem c2_counterexample :
    two_clusters.length ≠ cinzano_categories.length ∧
    final_mapping two_clusters 0 = some ⟨"Black 1", "<0.01", 0⟩ ∧
    final_mapping two_clusters 1 = some ⟨"Black 2", "0.01-0.06", 8⟩ := by
  refine ⟨by decide, ?_, ?_⟩ <;>
    · norm_num [final_mapping, calibrate, brightness_sorted, List.insertionSort,
        List.orderedInsert, brightness, two_clusters, cinzano_categories,
        List.zip, List.zipWith, List.lookup]
      try rfl

/-- C2 (amended): when K differs from the table length the calibrator
does not reject the configuration: it silently produces exactly
min(K, 16) pairings — the cluster at brightness rank i is bound to table
entry i below the truncation point, and every rank at or beyond the
table length is dropped without error. -/
theorem c2_silent_truncation (clusters : List Cluster) :
    (calibrate clusters).length = min clusters.length cinzano_categories.length ∧
    (∀ (i : ℕ) (c : Cluster) (cat : Category),
      (brightness_sorted clusters)[i]? = some c →
      cinzano_categories[i]? = some cat →
      (calibrate clusters)[i]? = some (c.cid, cat)) ∧
    (∀ i, cinzano_categories.length ≤ i → (calibrate clusters)[i]? = none) := by
  refine ⟨calibrate_length clusters,
    fun i (c : Cluster) (cat : Category) hc hcat => calibrate_getElem_some hc hcat,
    fun i hi => List.getElem?_eq_none ?_⟩
  rw [calibrate_length]
  exact le_trans (min_le_right _ _) hi

/-- C2 witness: the silent truncation evaluated on the concrete K = 2
configuration. -/
theorem c2_silent_truncation_witness :
    (calibrate two_clusters).length =
      min two_clusters.length cinzano_categories.length ∧
    (calibrate two_clusters)[0]? = some (0, ⟨"Black 1", "<0.01", 0⟩) ∧
    (calibrate two_clusters)[16]? = none :=
  ⟨(c2_silent_truncation two_clusters).1,
   (c2_silent_truncation two_clusters).2.1 0 ⟨0, 10, 10, 10⟩
     ⟨"Black 1", "<0.01", 0⟩
     (by norm_num [brightness_sorted, List.insertionSort, List.orderedInsert,
        brightness, two_clusters])
     (by decide),
   (c2_silent_truncation two_clusters).2.2 16 (by decide)⟩

/- ## Claim C3 -/

/-- C3: the Brightness Calibrator scores each cluster by the arithmetic
mean of its centroid channels, sorts the clusters ascending by that
score, binds the cluster at sorted rank i to table entry i, and (for the
pipeline's K = 16) gives every cluster id a bound category. -/
theorem c3_calibrator_correct (clusters : List Cluster)
    (h : clusters.length = 16) :
    (∀ c : Cluster, brightness c = (c.c0 + c.c1 + c.c2) / 3) ∧
    List.Sorted (fun a b => brightness a ≤ brightness b)
      (brightness_sorted clusters) ∧
    (brightness_sorted clusters).Perm clusters ∧
    (∀ (i : ℕ) (c : Cluster) (cat : Category),
      (brightness_sorted clusters)[i]? = some c →
      cinzano_categories[i]? = some cat →
      (calibrate clusters)[i]? = some (c.cid, cat)) ∧
    (∀ c ∈ clusters, ∃ cat, final_mapping clusters c.cid = some cat) := by
  refine ⟨fun c => rfl, brightness_sorted_sorted clusters,
    brightness_sorted_perm clusters,
    fun i (c : Cluster) (cat : Category) hc hcat => calibrate_getElem_some hc hcat,
    fun c hc => ?_⟩
  have hmem : c ∈ brightness_sorted clusters :=
    ((brightness_sorted_perm clusters).mem_iff).mpr hc
  obtain ⟨i, hi⟩ := List.mem_iff_getElem?.mp hmem
  obtain ⟨hilen, -⟩ := List.getElem?_eq_some.mp hi
  have hlen : (brightness_sorted clusters).length = 16 := by
    rw [(brightness_sorted_perm clusters).length_eq, h]
  have hctlen : cinzano_categories.length = 16 := rfl
  have hi16 : i < cinzano_categories.length := by omega
  have hcat : cinzano_categories[i]? = some (cinzano_categories.get ⟨i, hi16⟩) :=
    List.getElem?_eq_some.mpr ⟨hi16, rfl⟩
  have hcal := calibrate_getElem_some hi hcat
  exact lookup_isSome_of_mem (List.mem_iff_getElem?.mpr ⟨i, hcal⟩)

/-- C3 witness: the calibrator contract evaluated on a concrete 16-cluster
configuration. -/
theorem c3_calibrator_correct_witness :
    (∀ c : Cluster, brightness c = (c.c0 + c.c1 + c.c2) / 3) ∧
    List.Sorted (fun a b => brightness a ≤ brightness b)
      (brightness_sorted sixteen_clusters) ∧
    (brightness_sorted sixteen_clusters).Perm sixteen_clusters ∧
    (∀ (i : ℕ) (c : Cluster) (cat : Category),
      (brightness_sorted sixteen_clusters)[i]? = some c →
      cinzano_categories[i]? = some cat →
      (calibrate sixteen_clusters)[i]? = some (c.cid, cat)) ∧
    (∀ c ∈ sixteen_clusters, ∃ cat,
      final_mapping sixteen_clusters c.cid = some cat) :=
  c3_calibrator_correct sixteen_clusters rfl

/- ## Claim C4 -/

/-- C4: every pixel whose nearest cluster is bound to the border category
decodes to intensity 0, regardless of the pixel's raw color. -/
theorem c4_border_suppression (clusters : List Cluster) (p : ℚ × ℚ × ℚ)
    (c : Cluster) (cat : Category)
    (hn : find_closest_cluster p clusters = some c)
    (hm : final_mapping clusters c.cid = some cat)
    (hb : cat.name = border_category_name) :
    decode_atlas_pixel clusters p = 0 := by
  unfold decode_atlas_pixel
  rw [hn]
  show decode_pixel (final_mapping clusters) c.cid = 0
  unfold decode_pixel
  rw [hm]
  show (if cat.name = border_category_name then 0 else cat.intensity) = 0
  rw [hb]
  simp

/-- C4 witness: the border-white case — the raw color (255,255,255) is
nearest the brightest cluster, which is bound to the border category, and
the decoded intensity is 0. -/
theorem c4_border_suppression_witness :
    find_closest_cluster (255, 255, 255) sixteen_clusters =
      some ⟨15, 225, 225, 225⟩ ∧
    final_mapping sixteen_clusters 15 =
      some ⟨"White 2/Border", "Border", 0⟩ ∧
    decode_atlas_pixel sixteen_clusters (255, 255, 255) = 0 := by
  have hn : find_closest_cluster (255, 255, 255) sixteen_clusters =
      some ⟨15, 225, 225, 225⟩ := by
    norm_num [sixteen_clusters, find_closest_cluster, sq_dist, List.range_succ]
  have hm : final_mapping sixteen_clusters 15 =
      some ⟨"White 2/Border", "Border", 0⟩ := by
    norm_num [final_mapping, calibrate, brightness_sorted, List.insertionSort,
      List.orderedInsert, brightness, sixteen_clusters, cinzano_categories,
      List.zip, List.zipWith, List.lookup, List.range_succ]
    try rfl
  exact ⟨hn, hm, c4_border_suppression sixteen_clusters (255, 255, 255)
    ⟨15, 225, 225, 225⟩ ⟨"White 2/Border", "Border", 0⟩ hn hm rfl⟩

/- ## Claim C5 -/

/-- C5: a pixel whose nearest cluster id has no bound category in the
mapping decodes to the default intensity 0 instead of an error; the
remapper is a total function, so every pixel receives a defined
intensity. -/
theorem c5_unmapped_default_zero (clusters : List Cluster) (p : ℚ × ℚ × ℚ)
    (c : Cluster)
    (hn : find_closest_cluster p clusters = some c)
    (hm : final_mapping clusters c.cid = none) :
    decode_atlas_pixel clusters p = 0 := by
  unfold decode_atlas_pixel
  rw [hn]
  show decode_pixel (final_mapping clusters) c.cid = 0
  unfold decode_pixel
  rw [hm]

/-- C5 witness: with 17 clusters the brightest one is beyond the table
and unbound, and its pixels decode to 0. -/
theorem c5_unmapped_default_zero_witness :
    find_closest_cluster (255, 255, 255) seventeen_clusters =
      some ⟨16, 240, 240, 240⟩ ∧
    final_mapping seventeen_clusters 16 = none ∧
    decode_atlas_pixel seventeen_clusters (255, 255, 255) = 0 := by
  have hn : find_closest_cluster (255, 255, 255) seventeen_clusters =
      some ⟨16, 240, 240, 240⟩ := by
    norm_num [seventeen_clusters, find_closest_cluster, sq_dist, List.range_succ]
  have hm : final_mapping seventeen_clusters 16 = none := by
    norm_num [final_mapping, calibrate, brightness_sorted, List.insertionSort,
      List.orderedInsert, brightness, seventeen_clusters, cinzano_categories,
      List.zip, List.zipWith, List.lookup, List.range_succ]
    try rfl
  exact ⟨hn, hm, c5_unmapped_default_zero seventeen_clusters (255, 255, 255)
    ⟨16, 240, 240, 240⟩ hn hm⟩

/- ## Claim C6 -/

/-- C6: the direct-channel strategy equals the spec formula — the scalar
channel value normalized by the maximum raw value 37, clamped to the unit
interval, raised to the power 0.7 = 7/10, scaled by 255 and truncated —
and a raw value of 0 yields output 0. -/
theorem c6_direct_channel :
    (∀ v : ℕ, process_grayscale_pixel v = direct_channel_spec v) ∧
    process_grayscale_pixel 0 = 0 := by
  constructor
  · intro v
    unfold process_grayscale_pixel direct_channel_spec
    have ha : (0 : ℝ) ≤ (v : ℝ) / 37 := by positivity
    rw [max_eq_left ha, max_eq_right (le_min ha zero_le_one),
      show (0.7 : ℝ) = 7 / 10 by norm_num, mul_comm]
  · unfold process_grayscale_pixel
    norm_num

/- ## Claim C7 -/

/-- C7: the Tone Post-processor is order-preserving — for any intensity
pair a < b, a nonnegative contrast factor and any image mean, the
post-processed values satisfy a' ≤ b'. -/
theorem c7_tone_monotone (mean : ℤ) (factor : ℚ) (a b : ℕ)
    (hf : 0 ≤ factor) (hab : a < b) :
    contrast_enhance mean factor a ≤ contrast_enhance mean factor b := by
  unfold contrast_enhance
  apply clip8_mono
  have hab2 : (a : ℚ) ≤ (b : ℚ) := by exact_mod_cast hab.le
  have := mul_le_mul_of_nonneg_left (sub_le_sub_right hab2 ((mean : ℤ) : ℚ)) hf
  linarith

/-- C7 witness: monotonicity of the contrast step at factor 1.3 (the
pipeline's value), mean 100, pixels 1 < 2. -/
theorem c7_tone_monotone_witness :
    (0 : ℚ) ≤ 13 / 10 ∧ 1 < 2 ∧
    contrast_enhance 100 (13 / 10) 1 ≤ contrast_enhance 100 (13 / 10) 2 :=
  ⟨by norm_num, by norm_num,
   c7_tone_monotone 100 (13 / 10) 1 2 (by norm_num) (by norm_num)⟩

/- ## Claim C8 -/

/-- C8: range invariant — the direct-channel output, the tone
post-processor output and the classified remapper output all lie in
0..255 for every input. -/
theorem c8_range_invariant :
    (∀ v : ℕ, 0 ≤ process_grayscale_pixel v ∧ process_grayscale_pixel v ≤ 255) ∧
    (∀ (mean : ℤ) (factor : ℚ) (p : ℕ),
      0 ≤ contrast_enhance mean factor p ∧ contrast_enhance mean factor p ≤ 255) ∧
    (∀ (clusters : List Cluster) (p : ℚ × ℚ × ℚ),
      decode_atlas_pixel clusters p ≤ 255) := by
  refine ⟨fun v => ?_, fun mean factor p => clip8_bounds _, fun clusters p => ?_⟩
  · unfold process_grayscale_pixel
    set x : ℝ := min (max ((v : ℝ) / 37) 0) 1 with hx
    have h0 : 0 ≤ x := le_min (le_max_right _ _) zero_le_one
    have h1 : x ≤ 1 := min_le_right _ _
    have he0 : 0 ≤ x ^ (0.7 : ℝ) := Real.rpow_nonneg h0 _
    have he1 : x ^ (0.7 : ℝ) ≤ 1 := Real.rpow_le_one h0 h1 (by norm_num)
    constructor
    · exact Int.le_floor.mpr (by push_cast; nlinarith)
    · calc ⌊x ^ (0.7 : ℝ) * 255⌋ ≤ ⌊(255 : ℝ)⌋ := Int.floor_mono (by nlinarith)
        _ = 255 := by norm_num
  · have hmem := decode_atlas_pixel_mem clusters p
    have hall : ∀ n ∈ lightmap_intensities, n ≤ 255 := by decide
    exact hall _ hmem

/- ## Claim C9 -/

/-- C9: before tone post-processing, every pixel of the remapped lightmap
of the classified strategy takes one of the fifteen intensities of the
calibration table with border entries sent to 0; no interpolated value
ever appears. -/
theorem c9_intensity_alphabet :
    ∀ (clusters : List Cluster) (p : ℚ × ℚ × ℚ),
      decode_atlas_pixel clusters p ∈ lightmap_intensities :=
  fun clusters p => decode_atlas_pixel_mem clusters p

/- ## Claim C10 -/

/-- C10: the direct-channel output depends only on the red channel: two
pixels with the same red value and arbitrary green and blue values
produce identical outputs. -/
theorem c10_red_channel_only :
    ∀ r g b g2 b2 : ℕ,
      process_grayscale_rgb (r, g, b) = process_grayscale_rgb (r, g2, b2) :=
  fun _ _ _ _ _ => rfl

end AtlasDecoding
